import Mathlib

/-!
Shallow embedding of the Hyundai adjacent-lane radar tracking code of
opendbc (`opendbc/car/hyundai/carstate.py` and
`opendbc/car/hyundai/radar_interface.py`), together with proofs about it.

Numeric signal values are embedded as rationals: the Python floats here are
only compared against constants and against each other, never combined by
arithmetic, so exact rationals are a faithful model of every comparison the
code performs. The `aRel` field can hold the float NaN sentinel in the
source (`float('nan')`); it is modelled as `Option ℚ`, `none` standing for
NaN. None of the tracked properties depend on `yvRel`, which is always the
NaN sentinel in the modelled code paths, so it is omitted from the record.
-/

/-- `structs.RadarData.RadarPoint`: one radar detection as consumed by the
adjacent-lane logic (`trackId`, `measured`, `dRel`, `yRel`, `vRel`, `aRel`). -/
structure RadarPoint where
  trackId : ℕ
  measured : Bool
  dRel : ℚ
  yRel : ℚ
  vRel : ℚ
  aRel : Option ℚ
  deriving DecidableEq, Repr

/-- Per-side continuity-tracker state: the `left_lane_track_id` /
`left_lane_track_count` / `left_lane_lost_count` / `left_lane_lead`
attributes of `CarState` (and their `right_lane_*` twins). -/
structure LaneState where
  track_id : Option ℕ
  track_count : ℕ
  lost_count : ℕ
  lead : Option RadarPoint
  deriving DecidableEq, Repr

/-- `self.MIN_TRACK_COUNT = 5` in `CarState.__init__`. -/
def MIN_TRACK_COUNT : ℕ := 5

/-- `self.MAX_LOST_COUNT = 10` in `CarState.__init__`. -/
def MAX_LOST_COUNT : ℕ := 10

/-- `self.LANE_BOUNDARY = 1.8` in `CarState.__init__`. -/
def LANE_BOUNDARY : ℚ := mkRat 9 5

/-- `self.MAX_LATERAL = 4.5` in `CarState.__init__`. -/
def MAX_LATERAL : ℚ := mkRat 9 2

/-- `MIN_SPEED_FOR_ADJACENT_LANES = 8.94` (20 mph) in
`update_adjacent_lanes_from_live_tracks`. -/
def MIN_SPEED_FOR_ADJACENT_LANES : ℚ := mkRat 447 50

/-- `next((pt for pt in lane if pt.trackId == tid), None)`: first point of
the candidate list carrying the locked track id. -/
def findSameTrack (lane : List RadarPoint) (tid : ℕ) : Option RadarPoint :=
  lane.find? (fun pt => pt.trackId = tid)

/-- Python's `min(lane, key=lambda pt: pt.dRel)` wrapped in the source's
`... if lane else None`: the first point of minimal `dRel`, or `none` on an
empty list.  Python's `min` keeps the earliest of equal keys, which the
strict `<` in the fold reproduces. -/
def minByDRel : List RadarPoint → Option RadarPoint
  | [] => none
  | p :: ps => some (ps.foldl (fun acc q => if q.dRel < acc.dRel then q else acc) p)

/-- One per-side cycle of the continuity tracker: the left-lane block of
`CarState.update_adjacent_lanes_from_live_tracks` (the right-lane block is
the same code with the other side's attributes), given this side's
candidate list for the cycle:

* locked and candidate with the locked id found: `lost_count = 0`,
  `track_count += 1`, lead shown iff `track_count >= MIN_TRACK_COUNT`;
* locked and not found: `lost_count += 1`, lead cleared, and once
  `lost_count > MAX_LOST_COUNT` the lock is dropped and the closest
  candidate (if any) acquired with `track_count = 1`;
* unlocked: acquire the closest candidate (if any) with `track_count = 1`,
  lead stays hidden. -/
def laneTrackStep (s : LaneState) (lane : List RadarPoint) : LaneState :=
  match s.track_id with
  | some tid =>
    match findSameTrack lane tid with
    | some pt =>
      let cnt := s.track_count + 1
      { track_id := some tid, track_count := cnt, lost_count := 0,
        lead := if cnt ≥ MIN_TRACK_COUNT then some pt else none }
    | none =>
      let lost := s.lost_count + 1
      if lost > MAX_LOST_COUNT then
        match minByDRel lane with
        | some c => { track_id := some c.trackId, track_count := 1, lost_count := 0, lead := none }
        | none => { track_id := none, track_count := 0, lost_count := 0, lead := none }
      else
        { s with lost_count := lost, lead := none }
  | none =>
    match minByDRel lane with
    | some c => { track_id := some c.trackId, track_count := 1, lost_count := 0, lead := none }
    | none => { s with lead := none }

/-- The candidate-gathering loop of `update_adjacent_lanes_from_live_tracks`
(`for pt in live_tracks.points: ...`), returning `(left_lane, right_lane)`.
The `continue`-style filters and the `if`/`elif` side assignment are
translated branch for branch, in source order. -/
def gatherLanes (v_ego leftQ rightQ : ℚ) : List RadarPoint → List RadarPoint × List RadarPoint
  | [] => ([], [])
  | pt :: rest =>
    let lr := gatherLanes v_ego leftQ rightQ rest
    if pt.measured = false then lr
    else if pt.dRel < mkRat 3 4 ∨ pt.dRel > 200 then lr
    else if |pt.yRel| < LANE_BOUNDARY ∨ |pt.yRel| > MAX_LATERAL then lr
    else if (if v_ego > 1 then |pt.vRel| < 1 else pt.vRel > -7) then lr
    else if -MAX_LATERAL < pt.yRel ∧ pt.yRel < -LANE_BOUNDARY then
      (if leftQ > 0 then pt :: lr.1 else lr.1, lr.2)
    else if LANE_BOUNDARY < pt.yRel ∧ pt.yRel < MAX_LATERAL then
      (lr.1, if rightQ > 0 then pt :: lr.2 else lr.2)
    else lr

/-- The adjacent-lane slice of `CarState`: the two per-side continuity
states plus the vision lane-quality signals (`left_lane_quality` /
`right_lane_quality`, raw CAN values compared against 0). -/
structure AdjState where
  left : LaneState
  right : LaneState
  left_lane_quality : ℚ
  right_lane_quality : ℚ
  deriving DecidableEq, Repr

/-- `CarState.update_adjacent_lanes_from_live_tracks(live_tracks, v_ego)`
for a call that passes the `live_tracks`/`points` attribute guard, with
`points` the decoded detection list. Below the 8.94 m/s speed gate both
leads are cleared and nothing else changes; otherwise the candidate lists
are gathered and each side's tracker takes one step. -/
def update_adjacent_lanes_from_live_tracks (st : AdjState) (points : List RadarPoint)
    (v_ego : ℚ) : AdjState :=
  if v_ego < MIN_SPEED_FOR_ADJACENT_LANES then
    { st with left := { st.left with lead := none }, right := { st.right with lead := none } }
  else
    let lanes := gatherLanes v_ego st.left_lane_quality st.right_lane_quality points
    { st with left := laneTrackStep st.left lanes.1, right := laneTrackStep st.right lanes.2 }

/-- `CarState.update_radar_tracks(radar_interface)`: copies the radar
interface's `left_lane_lead` / `right_lane_lead` attributes into the car
state verbatim (the `hasattr` guard always holds for the Hyundai
`RadarInterface`, which assigns both attributes in `__init__`). -/
def update_radar_tracks (st : AdjState) (ri_left ri_right : Option RadarPoint) : AdjState :=
  { st with left := { st.left with lead := ri_left },
            right := { st.right with lead := ri_right } }

/-- `RadarInterface._update_adjacent_lane_leads(radar_points)`: per-side
band filter (`measured` and `-5.5 < yRel < -1.8`, resp. `1.8 < yRel <
5.5`, the function's local `LANE_BOUNDARY = 1.8` / `MAX_LATERAL = 5.5`)
followed by closest-point selection, with no other condition. -/
def update_adjacent_lane_leads (radar_points : List RadarPoint) :
    Option RadarPoint × Option RadarPoint :=
  let left_lane := radar_points.filter
    (fun pt => pt.measured && decide (-(mkRat 11 2) < pt.yRel) && decide (pt.yRel < -(mkRat 9 5)))
  let right_lane := radar_points.filter
    (fun pt => pt.measured && decide (mkRat 9 5 < pt.yRel) && decide (pt.yRel < mkRat 11 2))
  (minByDRel left_lane, minByDRel right_lane)

/-- Iterated tracker cycles: `trackIter lanes s n` is the per-side state
after `n` further cycles from `s`, cycle `i` seeing candidate list
`lanes i`. -/
def trackIter (lanes : ℕ → List RadarPoint) (s : LaneState) : ℕ → LaneState
  | 0 => s
  | n + 1 => laneTrackStep (trackIter lanes s n) (lanes n)

/-! ### The radar slot store (`RadarInterface._update`)

The store `self.pts` is a Python dict keyed by slot (`addr`, or the string
`f"{addr}_{i}"` for the MRREVO14F's two sub-slots per message). It is
modelled as an association list with the dict's insertion-order semantics;
the per-cycle pass touches each key at most once. -/

/-- Dict membership/lookup on the association-list store. -/
def storeLookup {K : Type} [DecidableEq K] : List (K × RadarPoint) → K → Option RadarPoint
  | [], _ => none
  | kv :: rest, k => if kv.1 = k then some kv.2 else storeLookup rest k

/-- In-place field assignment `self.pts[k].field = v` on the store: rewrite
the entry at key `k` with `w`, leaving every other entry in place. -/
def storeSet {K : Type} [DecidableEq K] :
    List (K × RadarPoint) → K → (RadarPoint → RadarPoint) → List (K × RadarPoint)
  | [], _, _ => []
  | kv :: rest, k, w => (if kv.1 = k then (kv.1, w kv.2) else kv) :: storeSet rest k w

/-- `del self.pts[k]`. -/
def storeErase {K : Type} [DecidableEq K] : List (K × RadarPoint) → K → List (K × RadarPoint)
  | [], _ => []
  | kv :: rest, k => if kv.1 = k then storeErase rest k else kv :: storeErase rest k

/-- `structs.RadarData.RadarPoint()` fresh from the constructor with
`trackId` assigned right after (capnp defaults: `measured = false`, numeric
fields 0). -/
def newRadarPoint (tid : ℕ) : RadarPoint :=
  { trackId := tid, measured := false, dRel := 0, yRel := 0, vRel := 0, aRel := none }

/-- The store plus the monotonically increasing `self.track_id` counter. -/
structure RadarStore (K : Type) where
  pts : List (K × RadarPoint)
  track_id : ℕ

/-- The per-slot body shared by the three `_update` branches: if the key is
new, insert a fresh point with the next `track_id` (this happens before the
validity test, exactly as in the source); then, if the report is valid,
write the decoded fields with `w`, else delete the key. -/
def radarSlotStep {K : Type} [DecidableEq K] (st : RadarStore K) (k : K) (valid : Bool)
    (w : RadarPoint → RadarPoint) : RadarStore K :=
  let st1 : RadarStore K :=
    if storeLookup st.pts k = none then
      { pts := st.pts ++ [(k, newRadarPoint st.track_id)], track_id := st.track_id + 1 }
    else st
  if valid then
    { st1 with pts := storeSet st1.pts k w }
  else
    { st1 with pts := storeErase st1.pts k }

/-- One cycle's slot reports: key, validity, and the field write the branch
performs when the report is valid. -/
def radarPass {K : Type} [DecidableEq K] (st : RadarStore K)
    (reports : List (K × Bool × (RadarPoint → RadarPoint))) : RadarStore K :=
  reports.foldl (fun s r => radarSlotStep s r.1 r.2.1 r.2.2) st

/-- One `RADAR_TRACK_xxx` message of the MRR35 variant. -/
structure Mrr35Msg where
  STATE : ℕ
  LONG_DIST : ℚ
  LAT_DIST : ℚ
  REL_SPEED : ℚ
  REL_ACCEL : ℚ
  deriving DecidableEq, Repr

/-- The MRR35 branch of `_update` for one `addr`: valid iff
`msg['STATE'] in (3, 4)`; on valid, write `measured/dRel/yRel/vRel/aRel`
from the message (`yvRel` stays NaN), else `del self.pts[addr]`. -/
def mrr35SlotStep (st : RadarStore ℕ) (addr : ℕ) (msg : Mrr35Msg) : RadarStore ℕ :=
  radarSlotStep st addr (msg.STATE = 3 ∨ msg.STATE = 4)
    (fun pt => { pt with measured := true, dRel := msg.LONG_DIST, yRel := msg.LAT_DIST,
                         vRel := msg.REL_SPEED, aRel := some msg.REL_ACCEL })

/-- The MRR35 branch of `_update` over the whole cycle's address range. -/
def mrr35Update (st : RadarStore ℕ) (msgs : List (ℕ × Mrr35Msg)) : RadarStore ℕ :=
  msgs.foldl (fun s am => mrr35SlotStep s am.1 am.2) st

/-- One `RADAR_TRACK_xxx` message of the Mando variant (same validity test
as MRR35; `dRel`/`yRel` are derived from `AZIMUTH`/`LONG_DIST` by
`cos`/`sin`). -/
structure MandoMsg where
  STATE : ℕ
  AZIMUTH : ℚ
  LONG_DIST : ℚ
  REL_SPEED : ℚ
  REL_ACCEL : ℚ
  deriving DecidableEq, Repr

/-- The Mando branch of `_update` for one `addr`. The trigonometric
position conversion (`cos(azimuth) * LONG_DIST`,
`0.5 * -sin(azimuth) * LONG_DIST`) is kept as an explicit conversion
parameter `conv : azimuth → long_dist → (dRel, yRel)`: the store-membership
and `measured` behaviour under scrutiny is independent of the computed
values, and `Real.cos` has no executable rational form. Everything else is
branch for branch as in the source. -/
def mandoSlotStep (conv : ℚ → ℚ → ℚ × ℚ) (st : RadarStore ℕ) (addr : ℕ) (msg : MandoMsg) :
    RadarStore ℕ :=
  radarSlotStep st addr (msg.STATE = 3 ∨ msg.STATE = 4)
    (fun pt => { pt with measured := true, dRel := (conv msg.AZIMUTH msg.LONG_DIST).1,
                         yRel := (conv msg.AZIMUTH msg.LONG_DIST).2,
                         vRel := msg.REL_SPEED, aRel := some msg.REL_ACCEL })

/-- The Mando branch of `_update` over the whole cycle's address range. -/
def mandoUpdate (conv : ℚ → ℚ → ℚ × ℚ) (st : RadarStore ℕ) (msgs : List (ℕ × MandoMsg)) :
    RadarStore ℕ :=
  msgs.foldl (fun s am => mandoSlotStep conv s am.1 am.2) st

/-- One `RADAR_TRACK_xxx` message of the MRREVO14F variant, carrying two
sub-detections `1_*` and `2_*`. -/
structure Mrrevo14fMsg where
  DISTANCE_1 : ℚ
  LATERAL_1 : ℚ
  SPEED_1 : ℚ
  DISTANCE_2 : ℚ
  LATERAL_2 : ℚ
  SPEED_2 : ℚ
  deriving DecidableEq, Repr

/-- The MRREVO14F per-sub-slot body: key `f"{addr}_{i}"` is modelled as the
pair `(addr, i)`; valid iff the distance is not the `255.75` sentinel; on
valid write `measured/dRel/yRel/vRel` and the NaN `aRel`, else delete. -/
def mrrevo14fSubStep (st : RadarStore (ℕ × ℕ)) (addr i : ℕ) (dist lat speed : ℚ) :
    RadarStore (ℕ × ℕ) :=
  radarSlotStep st (addr, i) (dist ≠ mkRat 1023 4)
    (fun pt => { pt with measured := true, dRel := dist, yRel := lat, vRel := speed,
                         aRel := none })

/-- The MRREVO14F branch of `_update` for one `addr`: sub-slot `1` then
sub-slot `2`, in the source's `for i in ("1", "2")` order. -/
def mrrevo14fSlotStep (st : RadarStore (ℕ × ℕ)) (addr : ℕ) (msg : Mrrevo14fMsg) :
    RadarStore (ℕ × ℕ) :=
  mrrevo14fSubStep
    (mrrevo14fSubStep st addr 1 msg.DISTANCE_1 msg.LATERAL_1 msg.SPEED_1)
    addr 2 msg.DISTANCE_2 msg.LATERAL_2 msg.SPEED_2

/-- The MRREVO14F branch of `_update` over the whole cycle's address
range. -/
def mrrevo14fUpdate (st : RadarStore (ℕ × ℕ)) (msgs : List (ℕ × Mrrevo14fMsg)) :
    RadarStore (ℕ × ℕ) :=
  msgs.foldl (fun s am => mrrevo14fSlotStep s am.1 am.2) st

/-! ### Helper lemmas about the closest-candidate selection -/

lemma foldl_minByDRel_spec (ps : List RadarPoint) :
    ∀ a : RadarPoint,
      (ps.foldl (fun acc q => if q.dRel < acc.dRel then q else acc) a = a ∨
        ps.foldl (fun acc q => if q.dRel < acc.dRel then q else acc) a ∈ ps) ∧
      (ps.foldl (fun acc q => if q.dRel < acc.dRel then q else acc) a).dRel ≤ a.dRel ∧
      ∀ p ∈ ps, (ps.foldl (fun acc q => if q.dRel < acc.dRel then q else acc) a).dRel ≤ p.dRel := by
  induction ps with
  | nil => intro a; simp
  | cons q ps ih =>
    intro a
    simp only [List.foldl_cons]
    rcases ih (if q.dRel < a.dRel then q else a) with ⟨hmem, hle, hall⟩
    by_cases h : q.dRel < a.dRel
    · simp only [if_pos h] at hmem hle hall ⊢
      refine ⟨?_, ?_, ?_⟩
      · rcases hmem with hmem | hmem
        · exact Or.inr (by rw [hmem]; exact List.mem_cons_self q ps)
        · exact Or.inr (List.mem_cons_of_mem q hmem)
      · exact hle.trans h.le
      · intro p hp
        rcases List.mem_cons.1 hp with rfl | hp
        · exact hle
        · exact hall p hp
    · simp only [if_neg h] at hmem hle hall ⊢
      refine ⟨?_, hle, ?_⟩
      · rcases hmem with hmem | hmem
        · exact Or.inl hmem
        · exact Or.inr (List.mem_cons_of_mem q hmem)
      · intro p hp
        rcases List.mem_cons.1 hp with rfl | hp
        · exact hle.trans (le_of_not_lt h)
        · exact hall p hp

lemma minByDRel_eq_none {l : List RadarPoint} : minByDRel l = none ↔ l = [] := by
  cases l <;> simp [minByDRel]

lemma minByDRel_spec {l : List RadarPoint} {c : RadarPoint} (h : minByDRel l = some c) :
    c ∈ l ∧ ∀ p ∈ l, c.dRel ≤ p.dRel := by
  match l, h with
  | p :: ps, h =>
    simp only [minByDRel, Option.some.injEq] at h
    rcases foldl_minByDRel_spec ps p with ⟨hmem, hle, hall⟩
    rw [h] at hmem hle hall
    refine ⟨?_, ?_⟩
    · rcases hmem with rfl | hmem
      · exact List.mem_cons_self _ _
      · exact List.mem_cons_of_mem _ hmem
    · intro x hx
      rcases List.mem_cons.1 hx with rfl | hx
      · exact hle
      · exact hall x hx

/-! ### Helper lemmas about the locked-track search -/

lemma findSameTrack_eq_none {lane : List RadarPoint} {tid : ℕ} :
    findSameTrack lane tid = none ↔ ∀ pt ∈ lane, pt.trackId ≠ tid := by
  simp [findSameTrack, List.find?_eq_none]

lemma findSameTrack_spec {lane : List RadarPoint} {tid : ℕ} {pt : RadarPoint}
    (h : findSameTrack lane tid = some pt) : pt ∈ lane ∧ pt.trackId = tid := by
  refine ⟨List.mem_of_find?_eq_some h, ?_⟩
  have := List.find?_some h
  simpa using this

/-! ### Characterizing the candidate lists -/

/-- The conjunction of conditions under which the gathering loop appends a
point to `left_lane`, in the loop's branch order. -/
def LeftAdmitted (v_ego leftQ : ℚ) (pt : RadarPoint) : Prop :=
  pt.measured = true ∧
  ¬(pt.dRel < mkRat 3 4 ∨ pt.dRel > 200) ∧
  ¬(|pt.yRel| < LANE_BOUNDARY ∨ |pt.yRel| > MAX_LATERAL) ∧
  ¬(if v_ego > 1 then |pt.vRel| < 1 else pt.vRel > -7) ∧
  (-MAX_LATERAL < pt.yRel ∧ pt.yRel < -LANE_BOUNDARY) ∧
  leftQ > 0

/-- The conjunction of conditions under which the gathering loop appends a
point to `right_lane` (the `elif` is reached only when the left-band test
failed). -/
def RightAdmitted (v_ego rightQ : ℚ) (pt : RadarPoint) : Prop :=
  pt.measured = true ∧
  ¬(pt.dRel < mkRat 3 4 ∨ pt.dRel > 200) ∧
  ¬(|pt.yRel| < LANE_BOUNDARY ∨ |pt.yRel| > MAX_LATERAL) ∧
  ¬(if v_ego > 1 then |pt.vRel| < 1 else pt.vRel > -7) ∧
  ¬(-MAX_LATERAL < pt.yRel ∧ pt.yRel < -LANE_BOUNDARY) ∧
  (LANE_BOUNDARY < pt.yRel ∧ pt.yRel < MAX_LATERAL) ∧
  rightQ > 0

lemma mem_cons_and_iff {q pt : RadarPoint} {rest : List RadarPoint} {P : RadarPoint → Prop}
    (hq : ¬ P q) : pt ∈ rest ∧ P pt ↔ pt ∈ q :: rest ∧ P pt := by
  constructor
  · rintro ⟨h, hp⟩
    exact ⟨List.mem_cons_of_mem _ h, hp⟩
  · rintro ⟨h, hp⟩
    rcases List.mem_cons.1 h with rfl | h
    · exact absurd hp hq
    · exact ⟨h, hp⟩

lemma mem_gatherLanes {v lq rq : ℚ} {pts : List RadarPoint} {pt : RadarPoint} :
    (pt ∈ (gatherLanes v lq rq pts).1 ↔ pt ∈ pts ∧ LeftAdmitted v lq pt) ∧
    (pt ∈ (gatherLanes v lq rq pts).2 ↔ pt ∈ pts ∧ RightAdmitted v rq pt) := by
  induction pts with
  | nil => simp [gatherLanes]
  | cons q rest ih =>
    obtain ⟨ihL, ihR⟩ := ih
    have stepL : ¬ LeftAdmitted v lq q →
        (pt ∈ (gatherLanes v lq rq rest).1 ↔ pt ∈ q :: rest ∧ LeftAdmitted v lq pt) :=
      fun hq => ihL.trans (mem_cons_and_iff hq)
    have stepR : ¬ RightAdmitted v rq q →
        (pt ∈ (gatherLanes v lq rq rest).2 ↔ pt ∈ q :: rest ∧ RightAdmitted v rq pt) :=
      fun hq => ihR.trans (mem_cons_and_iff hq)
    have pushL : LeftAdmitted v lq q →
        (pt ∈ q :: (gatherLanes v lq rq rest).1 ↔ pt ∈ q :: rest ∧ LeftAdmitted v lq pt) := by
      intro hq
      constructor
      · intro h
        rcases List.mem_cons.1 h with rfl | h
        · exact ⟨List.mem_cons_self _ _, hq⟩
        · rcases ihL.1 h with ⟨hmem, hadm⟩
          exact ⟨List.mem_cons_of_mem _ hmem, hadm⟩
      · rintro ⟨hmem, hadm⟩
        rcases List.mem_cons.1 hmem with rfl | hmem
        · exact List.mem_cons_self _ _
        · exact List.mem_cons_of_mem _ (ihL.2 ⟨hmem, hadm⟩)
    have pushR : RightAdmitted v rq q →
        (pt ∈ q :: (gatherLanes v lq rq rest).2 ↔ pt ∈ q :: rest ∧ RightAdmitted v rq pt) := by
      intro hq
      constructor
      · intro h
        rcases List.mem_cons.1 h with rfl | h
        · exact ⟨List.mem_cons_self _ _, hq⟩
        · rcases ihR.1 h with ⟨hmem, hadm⟩
          exact ⟨List.mem_cons_of_mem _ hmem, hadm⟩
      · rintro ⟨hmem, hadm⟩
        rcases List.mem_cons.1 hmem with rfl | hmem
        · exact List.mem_cons_self _ _
        · exact List.mem_cons_of_mem _ (ihR.2 ⟨hmem, hadm⟩)
    simp only [gatherLanes]
    by_cases h1 : q.measured = false
    · rw [if_pos h1]
      have hL : ¬ LeftAdmitted v lq q := fun hadm => by simp [hadm.1] at h1
      have hR : ¬ RightAdmitted v rq q := fun hadm => by simp [hadm.1] at h1
      exact ⟨stepL hL, stepR hR⟩
    · rw [if_neg h1]
      have hqm : q.measured = true := by
        cases hm : q.measured
        · exact absurd hm h1
        · rfl
      by_cases h2 : q.dRel < mkRat 3 4 ∨ q.dRel > 200
      · rw [if_pos h2]
        exact ⟨stepL (fun hadm => hadm.2.1 h2), stepR (fun hadm => hadm.2.1 h2)⟩
      · rw [if_neg h2]
        by_cases h3 : |q.yRel| < LANE_BOUNDARY ∨ |q.yRel| > MAX_LATERAL
        · rw [if_pos h3]
          exact ⟨stepL (fun hadm => hadm.2.2.1 h3), stepR (fun hadm => hadm.2.2.1 h3)⟩
        · rw [if_neg h3]
          by_cases h4 : (if v > 1 then |q.vRel| < 1 else q.vRel > -7)
          · rw [if_pos h4]
            exact ⟨stepL (fun hadm => hadm.2.2.2.1 h4), stepR (fun hadm => hadm.2.2.2.1 h4)⟩
          · rw [if_neg h4]
            by_cases h5 : -MAX_LATERAL < q.yRel ∧ q.yRel < -LANE_BOUNDARY
            · rw [if_pos h5]
              have hR : ¬ RightAdmitted v rq q := fun hadm => hadm.2.2.2.2.1 h5
              by_cases h6 : lq > 0
              · rw [if_pos h6]
                exact ⟨pushL ⟨hqm, h2, h3, h4, h5, h6⟩, stepR hR⟩
              · rw [if_neg h6]
                exact ⟨stepL (fun hadm => h6 hadm.2.2.2.2.2), stepR hR⟩
            · rw [if_neg h5]
              have hL : ¬ LeftAdmitted v lq q := fun hadm => h5 hadm.2.2.2.2.1
              by_cases h6 : LANE_BOUNDARY < q.yRel ∧ q.yRel < MAX_LATERAL
              · rw [if_pos h6]
                by_cases h7 : rq > 0
                · rw [if_pos h7]
                  exact ⟨stepL hL, pushR ⟨hqm, h2, h3, h4, h5, h6, h7⟩⟩
                · rw [if_neg h7]
                  exact ⟨stepL hL, stepR (fun hadm => h7 hadm.2.2.2.2.2.2)⟩
              · rw [if_neg h6]
                exact ⟨stepL hL, stepR (fun hadm => h6 hadm.2.2.2.2.2.1)⟩

lemma mem_gatherLanes_left {v lq rq : ℚ} {pts : List RadarPoint} {pt : RadarPoint} :
    pt ∈ (gatherLanes v lq rq pts).1 ↔ pt ∈ pts ∧ LeftAdmitted v lq pt :=
  (@mem_gatherLanes v lq rq pts pt).1

lemma mem_gatherLanes_right {v lq rq : ℚ} {pts : List RadarPoint} {pt : RadarPoint} :
    pt ∈ (gatherLanes v lq rq pts).2 ↔ pt ∈ pts ∧ RightAdmitted v rq pt :=
  (@mem_gatherLanes v lq rq pts pt).2

/-! ### Helper lemmas about single tracker cycles -/

/-- Locked and matched this cycle: keep the lock, reset `lost_count`, bump
`track_count`, show the matched point iff the count reached the
confirmation threshold. -/
lemma laneTrackStep_matched {s : LaneState} {lane : List RadarPoint} {tid : ℕ} {pt : RadarPoint}
    (hid : s.track_id = some tid) (hpt : findSameTrack lane tid = some pt) :
    laneTrackStep s lane =
      ⟨some tid, s.track_count + 1, 0,
        if s.track_count + 1 ≥ MIN_TRACK_COUNT then some pt else none⟩ := by
  simp only [laneTrackStep, hid, hpt]

/-- Locked, missed, and still inside the forgiveness budget: keep the lock
and count, bump `lost_count`, clear the lead. -/
lemma laneTrackStep_coast {s : LaneState} {lane : List RadarPoint} {tid : ℕ}
    (hid : s.track_id = some tid) (hmiss : findSameTrack lane tid = none)
    (hlost : s.lost_count < MAX_LOST_COUNT) :
    laneTrackStep s lane = ⟨some tid, s.track_count, s.lost_count + 1, none⟩ := by
  have hng : ¬ (s.lost_count + 1 > MAX_LOST_COUNT) := by omega
  simp only [laneTrackStep, hid, hmiss, hng, if_false]

/-- Locked, missed, and the forgiveness budget exhausted: abandon the lock
and re-acquire the closest candidate in the same cycle (or fully reset when
there is none). -/
lemma laneTrackStep_abandon {s : LaneState} {lane : List RadarPoint} {tid : ℕ}
    (hid : s.track_id = some tid) (hmiss : findSameTrack lane tid = none)
    (hlost : MAX_LOST_COUNT ≤ s.lost_count) :
    laneTrackStep s lane =
      match minByDRel lane with
      | some c => ⟨some c.trackId, 1, 0, none⟩
      | none => ⟨none, 0, 0, none⟩ := by
  have hg : s.lost_count + 1 > MAX_LOST_COUNT := by omega
  simp only [laneTrackStep, hid, hmiss, hg, if_true]

/-- Unlocked: acquire the closest candidate with `track_count = 1` (or just
clear the lead when there is none). -/
lemma laneTrackStep_unlocked {s : LaneState} {lane : List RadarPoint}
    (hid : s.track_id = none) :
    laneTrackStep s lane =
      match minByDRel lane with
      | some c => ⟨some c.trackId, 1, 0, none⟩
      | none => { s with lead := none } := by
  simp only [laneTrackStep, hid]

/-! ### Helper lemmas about iterated tracker cycles -/

/-- While the locked track is matched every cycle, the lock is kept, the
confirmation count climbs by one per cycle, `lost_count` is pinned at 0,
and the lead is the point matched in the last cycle iff the count has
reached `MIN_TRACK_COUNT`. -/
lemma trackIter_matched (lanes : ℕ → List RadarPoint) (s : LaneState) (tid : ℕ) (k : ℕ)
    (hid : s.track_id = some tid)
    (hm : ∀ i, i < k → (findSameTrack (lanes i) tid).isSome) :
    (trackIter lanes s k).track_id = some tid ∧
    (trackIter lanes s k).track_count = s.track_count + k ∧
    (k ≠ 0 → (trackIter lanes s k).lost_count = 0 ∧
      (trackIter lanes s k).lead =
        (if s.track_count + k ≥ MIN_TRACK_COUNT then findSameTrack (lanes (k - 1)) tid
         else none)) := by
  induction k with
  | zero => exact ⟨hid, by simp [trackIter], fun h => absurd rfl h⟩
  | succ n ih =>
    rcases ih (fun i hi => hm i (hi.trans (Nat.lt_succ_self n))) with ⟨h1, h2, _⟩
    rcases Option.isSome_iff_exists.1 (hm n (Nat.lt_succ_self n)) with ⟨pt, hpt⟩
    have hstep : trackIter lanes s (n + 1) = laneTrackStep (trackIter lanes s n) (lanes n) := rfl
    rw [hstep, laneTrackStep_matched h1 hpt, h2]
    refine ⟨rfl, rfl, fun _ => ⟨rfl, ?_⟩⟩
    simp only [Nat.add_sub_cancel, hpt]
    rfl

/-- While the locked track is absent and the forgiveness budget is not yet
exceeded, the lock and count are kept, the lost counter climbs by one per
cycle, and (after at least one cycle) the lead is cleared. -/
lemma trackIter_missed (lanes : ℕ → List RadarPoint) (s : LaneState) (tid : ℕ) (k : ℕ)
    (hid : s.track_id = some tid)
    (hm : ∀ i, i < k → findSameTrack (lanes i) tid = none)
    (hk : s.lost_count + k ≤ MAX_LOST_COUNT) :
    trackIter lanes s k =
      ⟨some tid, s.track_count, s.lost_count + k, if k = 0 then s.lead else none⟩ := by
  induction k with
  | zero =>
    have : s = ⟨some tid, s.track_count, s.lost_count, s.lead⟩ := by
      cases s; simp_all
    simpa [trackIter] using this
  | succ n ih =>
    have hrec := ih (fun i hi => hm i (hi.trans (Nat.lt_succ_self n))) (by omega)
    have hstep : trackIter lanes s (n + 1) = laneTrackStep (trackIter lanes s n) (lanes n) := rfl
    rw [hstep, hrec]
    rw [laneTrackStep_coast rfl (hm n (Nat.lt_succ_self n)) (by simp; omega)]
    simp [Nat.add_assoc]

/-! ### Helper lemmas about the radar slot store -/

lemma storeLookup_storeSet_self {K : Type} [DecidableEq K] (pts : List (K × RadarPoint))
    (k : K) (w : RadarPoint → RadarPoint) :
    storeLookup (storeSet pts k w) k = (storeLookup pts k).map w := by
  induction pts with
  | nil => rfl
  | cons kv rest ih =>
    by_cases h : kv.1 = k
    · simp [storeSet, storeLookup, h]
    · simp [storeSet, storeLookup, h, ih]

lemma storeLookup_storeSet_ne {K : Type} [DecidableEq K] (pts : List (K × RadarPoint))
    {k k' : K} (w : RadarPoint → RadarPoint) (hne : k' ≠ k) :
    storeLookup (storeSet pts k w) k' = storeLookup pts k' := by
  induction pts with
  | nil => rfl
  | cons kv rest ih =>
    by_cases h : kv.1 = k
    · have h2 : kv.1 ≠ k' := fun hc => hne (hc ▸ h ▸ rfl)
      simp [storeSet, storeLookup, h, h2, Ne.symm hne, ih]
    · by_cases h3 : kv.1 = k'
      · simp [storeSet, storeLookup, h, h3, hne]
      · simp [storeSet, storeLookup, h, h3, ih]

lemma storeLookup_storeErase_self {K : Type} [DecidableEq K] (pts : List (K × RadarPoint))
    (k : K) : storeLookup (storeErase pts k) k = none := by
  induction pts with
  | nil => rfl
  | cons kv rest ih =>
    by_cases h : kv.1 = k
    · simpa [storeErase, h] using ih
    · simpa [storeErase, storeLookup, h] using ih

lemma storeLookup_storeErase_ne {K : Type} [DecidableEq K] (pts : List (K × RadarPoint))
    {k k' : K} (hne : k' ≠ k) :
    storeLookup (storeErase pts k) k' = storeLookup pts k' := by
  induction pts with
  | nil => rfl
  | cons kv rest ih =>
    by_cases h : kv.1 = k
    · have h2 : kv.1 ≠ k' := fun hc => hne (hc ▸ h ▸ rfl)
      simp [storeErase, storeLookup, h, h2, Ne.symm hne, ih]
    · by_cases h3 : kv.1 = k'
      · simp [storeErase, storeLookup, h, h3, hne]
      · simp [storeErase, storeLookup, h, h3, ih]

lemma storeLookup_append_single_ne {K : Type} [DecidableEq K] (pts : List (K × RadarPoint))
    {k k' : K} (p : RadarPoint) (hne : k' ≠ k) :
    storeLookup (pts ++ [(k, p)]) k' = storeLookup pts k' := by
  induction pts with
  | nil => simp [storeLookup, Ne.symm hne]
  | cons kv rest ih =>
    by_cases h : kv.1 = k'
    · simp [storeLookup, h]
    · simp only [List.cons_append]
      simp [storeLookup, h, ih]

/-- Slots other than the one being processed keep their lookup result. -/
lemma radarSlotStep_lookup_ne {K : Type} [DecidableEq K] (st : RadarStore K) {k k' : K}
    (valid : Bool) (w : RadarPoint → RadarPoint) (hne : k' ≠ k) :
    storeLookup (radarSlotStep st k valid w).pts k' = storeLookup st.pts k' := by
  unfold radarSlotStep
  by_cases hins : storeLookup st.pts k = none
  · simp only [hins, if_pos rfl]
    cases valid
    · simp [storeLookup_storeErase_ne _ hne, storeLookup_append_single_ne _ _ hne]
    · simp [storeLookup_storeSet_ne _ _ hne, storeLookup_append_single_ne _ _ hne]
  · simp only [if_neg hins]
    cases valid
    · simp [storeLookup_storeErase_ne _ hne]
    · simp [storeLookup_storeSet_ne _ _ hne]

/-- An invalid report leaves no record behind for its slot. -/
lemma radarSlotStep_lookup_self_invalid {K : Type} [DecidableEq K] (st : RadarStore K)
    (k : K) (w : RadarPoint → RadarPoint) :
    storeLookup (radarSlotStep st k false w).pts k = none := by
  unfold radarSlotStep
  by_cases hins : storeLookup st.pts k = none
  · simp [hins, storeLookup_storeErase_self]
  · simp [hins, storeLookup_storeErase_self]

/-- Every record in the store either belongs to a still-pending slot or is
already marked measured. -/
def storeMeasuredOrPending {K : Type} (pend : List K) (pts : List (K × RadarPoint)) : Prop :=
  ∀ kv ∈ pts, kv.1 ∈ pend ∨ kv.2.measured = true

lemma storeMeasuredOrPending_set {K : Type} [DecidableEq K] {pend : List K}
    {pts : List (K × RadarPoint)} {k : K} {w : RadarPoint → RadarPoint}
    (hw : ∀ p, (w p).measured = true)
    (hst : storeMeasuredOrPending (k :: pend) pts) :
    storeMeasuredOrPending pend (storeSet pts k w) := by
  induction pts with
  | nil => intro kv hkv; simp [storeSet] at hkv
  | cons kv0 rest ih =>
    have hst0 := hst kv0 (List.mem_cons_self _ _)
    have hrest : storeMeasuredOrPending (k :: pend) rest :=
      fun q hq => hst q (List.mem_cons_of_mem _ hq)
    intro kv hkv
    rcases List.mem_cons.1 hkv with heq | htail
    · by_cases h : kv0.1 = k
      · rw [if_pos h] at heq
        subst heq
        exact Or.inr (hw kv0.2)
      · rw [if_neg h] at heq
        subst heq
        rcases hst0 with hp | hm
        · rcases List.mem_cons.1 hp with he | hp
          · exact absurd he h
          · exact Or.inl hp
        · exact Or.inr hm
    · exact ih hrest kv htail

lemma storeMeasuredOrPending_erase {K : Type} [DecidableEq K] {pend : List K}
    {pts : List (K × RadarPoint)} {k : K}
    (hst : storeMeasuredOrPending (k :: pend) pts) :
    storeMeasuredOrPending pend (storeErase pts k) := by
  induction pts with
  | nil => intro kv hkv; simp [storeErase] at hkv
  | cons kv0 rest ih =>
    have hst0 := hst kv0 (List.mem_cons_self _ _)
    have hrest : storeMeasuredOrPending (k :: pend) rest :=
      fun q hq => hst q (List.mem_cons_of_mem _ hq)
    intro kv hkv
    by_cases h : kv0.1 = k
    · rw [storeErase, if_pos h] at hkv
      exact ih hrest kv hkv
    · rw [storeErase, if_neg h] at hkv
      rcases List.mem_cons.1 hkv with heq | htail
      · subst heq
        rcases hst0 with hp | hm
        · rcases List.mem_cons.1 hp with he | hp
          · exact absurd he h
          · exact Or.inl hp
        · exact Or.inr hm
      · exact ih hrest kv htail

lemma storeMeasuredOrPending_append_new {K : Type} {pend : List K}
    {pts : List (K × RadarPoint)} {k : K} {tid : ℕ}
    (hst : storeMeasuredOrPending (k :: pend) pts) :
    storeMeasuredOrPending (k :: pend) (pts ++ [(k, newRadarPoint tid)]) := by
  intro kv hkv
  rcases List.mem_append.1 hkv with hkv | hkv
  · exact hst kv hkv
  · rcases List.mem_singleton.1 hkv with rfl
    exact Or.inl (List.mem_cons_self _ _)

lemma radarSlotStep_measured {K : Type} [DecidableEq K] {pend : List K} {st : RadarStore K}
    {k : K} {valid : Bool} {w : RadarPoint → RadarPoint}
    (hw : ∀ p, (w p).measured = true)
    (hst : storeMeasuredOrPending (k :: pend) st.pts) :
    storeMeasuredOrPending pend (radarSlotStep st k valid w).pts := by
  have key : ∀ st1 : RadarStore K, storeMeasuredOrPending (k :: pend) st1.pts →
      storeMeasuredOrPending pend
        (if valid then { st1 with pts := storeSet st1.pts k w }
         else { st1 with pts := storeErase st1.pts k }).pts := by
    intro st1 h1
    cases valid
    · simpa using storeMeasuredOrPending_erase h1
    · simpa using storeMeasuredOrPending_set hw h1
  unfold radarSlotStep
  by_cases hins : storeLookup st.pts k = none
  · rw [if_pos hins]
    exact key _ (storeMeasuredOrPending_append_new hst)
  · rw [if_neg hins]
    exact key _ hst

lemma radarPass_cons {K : Type} [DecidableEq K] (st : RadarStore K)
    (r : K × Bool × (RadarPoint → RadarPoint)) (rs : List (K × Bool × (RadarPoint → RadarPoint))) :
    radarPass st (r :: rs) = radarPass (radarSlotStep st r.1 r.2.1 r.2.2) rs := rfl

lemma radarPass_lookup_frame {K : Type} [DecidableEq K] (st : RadarStore K)
    (reports : List (K × Bool × (RadarPoint → RadarPoint))) (k : K)
    (hk : ∀ r ∈ reports, r.1 ≠ k) :
    storeLookup (radarPass st reports).pts k = storeLookup st.pts k := by
  induction reports generalizing st with
  | nil => rfl
  | cons r rs ih =>
    rw [radarPass_cons, ih _ (fun q h => hk q (List.mem_cons_of_mem _ h)),
      radarSlotStep_lookup_ne st _ _ (Ne.symm (hk r (List.mem_cons_self _ _)))]

/-- After a full pass, every record remaining in the store is marked
measured (provided every key with a pre-existing record is reported this
cycle, which holds in the source: `self.pts` keys all come from the fixed
address range iterated every cycle). -/
lemma radarPass_measured {K : Type} [DecidableEq K] (st : RadarStore K)
    (reports : List (K × Bool × (RadarPoint → RadarPoint)))
    (hw : ∀ r ∈ reports, ∀ p, (r.2.2 p).measured = true)
    (hst : storeMeasuredOrPending (reports.map (fun r => r.1)) st.pts) :
    ∀ kv ∈ (radarPass st reports).pts, kv.2.measured = true := by
  induction reports generalizing st with
  | nil =>
    intro kv hkv
    rcases hst kv hkv with hp | hm
    · simp at hp
    · exact hm
  | cons r rs ih =>
    rw [radarPass_cons]
    exact ih _ (fun q h => hw q (List.mem_cons_of_mem _ h))
      (radarSlotStep_measured (hw r (List.mem_cons_self _ _)) hst)

/-- After a full pass, a slot whose (unique) report this cycle is invalid
has no record in the store. -/
lemma radarPass_invalid_lookup {K : Type} [DecidableEq K] (st : RadarStore K)
    (reports : List (K × Bool × (RadarPoint → RadarPoint)))
    {k : K} {w : RadarPoint → RadarPoint}
    (hnodup : (reports.map (fun r => r.1)).Nodup)
    (hmem : (k, false, w) ∈ reports) :
    storeLookup (radarPass st reports).pts k = none := by
  induction reports generalizing st with
  | nil => cases hmem
  | cons r rs ih =>
    rw [radarPass_cons]
    rcases List.mem_cons.1 hmem with heq | hmem2
    · subst heq
      have hknot : k ∉ rs.map (fun r => r.1) := by
        simpa using (List.nodup_cons.1 hnodup).1
      rw [radarPass_lookup_frame _ _ _
        (fun q h hc => hknot (by rw [← hc]; exact List.mem_map_of_mem _ h))]
      exact radarSlotStep_lookup_self_invalid st k w
    · exact ih _ (List.nodup_cons.1 hnodup).2 hmem2

/-! ### The three `_update` branches as report lists -/

/-- The MRR35 cycle as slot reports. -/
def mrr35Reports (msgs : List (ℕ × Mrr35Msg)) :
    List (ℕ × Bool × (RadarPoint → RadarPoint)) :=
  msgs.map (fun am => (am.1, decide (am.2.STATE = 3 ∨ am.2.STATE = 4),
    fun pt => { pt with measured := true, dRel := am.2.LONG_DIST, yRel := am.2.LAT_DIST,
                        vRel := am.2.REL_SPEED, aRel := some am.2.REL_ACCEL }))

lemma mrr35Update_eq_radarPass (st : RadarStore ℕ) (msgs : List (ℕ × Mrr35Msg)) :
    mrr35Update st msgs = radarPass st (mrr35Reports msgs) := by
  unfold mrr35Update radarPass mrr35Reports
  rw [List.foldl_map]
  rfl

/-- The Mando cycle as slot reports. -/
def mandoReports (conv : ℚ → ℚ → ℚ × ℚ) (msgs : List (ℕ × MandoMsg)) :
    List (ℕ × Bool × (RadarPoint → RadarPoint)) :=
  msgs.map (fun am => (am.1, decide (am.2.STATE = 3 ∨ am.2.STATE = 4),
    fun pt => { pt with measured := true, dRel := (conv am.2.AZIMUTH am.2.LONG_DIST).1,
                        yRel := (conv am.2.AZIMUTH am.2.LONG_DIST).2,
                        vRel := am.2.REL_SPEED, aRel := some am.2.REL_ACCEL }))

lemma mandoUpdate_eq_radarPass (conv : ℚ → ℚ → ℚ × ℚ) (st : RadarStore ℕ)
    (msgs : List (ℕ × MandoMsg)) :
    mandoUpdate conv st msgs = radarPass st (mandoReports conv msgs) := by
  unfold mandoUpdate radarPass mandoReports
  rw [List.foldl_map]
  rfl

/-- The MRREVO14F cycle as slot reports: two per message, in sub-slot
order. -/
def mrrevo14fReports : List (ℕ × Mrrevo14fMsg) →
    List ((ℕ × ℕ) × Bool × (RadarPoint → RadarPoint))
  | [] => []
  | am :: rest =>
    ((am.1, 1), decide (am.2.DISTANCE_1 ≠ mkRat 1023 4),
      fun pt => { pt with measured := true, dRel := am.2.DISTANCE_1, yRel := am.2.LATERAL_1,
                          vRel := am.2.SPEED_1, aRel := none }) ::
    ((am.1, 2), decide (am.2.DISTANCE_2 ≠ mkRat 1023 4),
      fun pt => { pt with measured := true, dRel := am.2.DISTANCE_2, yRel := am.2.LATERAL_2,
                          vRel := am.2.SPEED_2, aRel := none }) ::
    mrrevo14fReports rest

lemma mrrevo14fUpdate_eq_radarPass (st : RadarStore (ℕ × ℕ))
    (msgs : List (ℕ × Mrrevo14fMsg)) :
    mrrevo14fUpdate st msgs = radarPass st (mrrevo14fReports msgs) := by
  induction msgs generalizing st with
  | nil => rfl
  | cons am rest ih => exact ih (mrrevo14fSlotStep st am.1 am.2)

lemma mem_keys_mrrevo14fReports {msgs : List (ℕ × Mrrevo14fMsg)} {k : ℕ × ℕ}
    (h : k ∈ (mrrevo14fReports msgs).map (fun r => r.1)) : k.1 ∈ msgs.map Prod.fst := by
  induction msgs with
  | nil => simp [mrrevo14fReports] at h
  | cons am rest ih =>
    simp only [mrrevo14fReports, List.map_cons, List.mem_cons] at h
    rcases h with rfl | rfl | h
    · simp
    · simp
    · simp only [List.map_cons, List.mem_cons]
      exact Or.inr (ih h)

lemma keys_mrrevo14fReports_nodup {msgs : List (ℕ × Mrrevo14fMsg)}
    (h : (msgs.map Prod.fst).Nodup) :
    ((mrrevo14fReports msgs).map (fun r => r.1)).Nodup := by
  induction msgs with
  | nil => simp [mrrevo14fReports]
  | cons am rest ih =>
    rcases List.nodup_cons.1 h with ⟨hnot, hrest⟩
    simp only [mrrevo14fReports, List.map_cons]
    refine List.nodup_cons.2 ⟨?_, List.nodup_cons.2 ⟨?_, ih hrest⟩⟩
    · intro hc
      rcases List.mem_cons.1 hc with heq | hc
      · have h12 : (1 : ℕ) = 2 := congrArg Prod.snd heq
        exact absurd h12 (by decide)
      · exact hnot (by simpa using mem_keys_mrrevo14fReports hc)
    · intro hc
      exact hnot (by simpa using mem_keys_mrrevo14fReports hc)

lemma key_mem_mrrevo14fReports {msgs : List (ℕ × Mrrevo14fMsg)} {a i : ℕ}
    (h1 : a ∈ msgs.map Prod.fst) (h2 : i = 1 ∨ i = 2) :
    (a, i) ∈ (mrrevo14fReports msgs).map (fun r => r.1) := by
  induction msgs with
  | nil => simp at h1
  | cons am rest ih =>
    simp only [List.map_cons, List.mem_cons] at h1
    simp only [mrrevo14fReports, List.map_cons, List.mem_cons]
    rcases h1 with rfl | h1
    · rcases h2 with rfl | rfl
      · exact Or.inl rfl
      · exact Or.inr (Or.inl rfl)
    · exact Or.inr (Or.inr (ih h1))

lemma mem_mrrevo14fReports_of_mem {msgs : List (ℕ × Mrrevo14fMsg)}
    {am : ℕ × Mrrevo14fMsg} (h : am ∈ msgs) :
    (((am.1, 1), decide (am.2.DISTANCE_1 ≠ mkRat 1023 4),
       fun pt => { pt with measured := true, dRel := am.2.DISTANCE_1, yRel := am.2.LATERAL_1,
                           vRel := am.2.SPEED_1, aRel := none }) ∈ mrrevo14fReports msgs) ∧
    (((am.1, 2), decide (am.2.DISTANCE_2 ≠ mkRat 1023 4),
       fun pt => { pt with measured := true, dRel := am.2.DISTANCE_2, yRel := am.2.LATERAL_2,
                           vRel := am.2.SPEED_2, aRel := none }) ∈ mrrevo14fReports msgs) := by
  induction msgs with
  | nil => cases h
  | cons b rest ih =>
    rcases List.mem_cons.1 h with rfl | h
    · exact ⟨List.mem_cons_self _ _, List.mem_cons_of_mem _ (List.mem_cons_self _ _)⟩
    · rcases ih h with ⟨h1, h2⟩
      exact ⟨List.mem_cons_of_mem _ (List.mem_cons_of_mem _ h1),
             List.mem_cons_of_mem _ (List.mem_cons_of_mem _ h2)⟩

lemma mrrevo14fReports_measured {msgs : List (ℕ × Mrrevo14fMsg)} :
    ∀ r ∈ mrrevo14fReports msgs, ∀ p, (r.2.2 p).measured = true := by
  induction msgs with
  | nil => intro r hr; cases hr
  | cons am rest ih =>
    intro r hr
    rcases List.mem_cons.1 hr with rfl | hr
    · intro p; rfl
    · rcases List.mem_cons.1 hr with rfl | hr
      · intro p; rfl
      · exact ih r hr

/-- Locked and missed this cycle: the lead is cleared at the end of the
cycle, whether the tracker coasts, abandons with re-acquisition, or
abandons empty-handed. -/
lemma laneTrackStep_miss_lead {s : LaneState} {lane : List RadarPoint} {tid : ℕ}
    (hid : s.track_id = some tid) (hmiss : findSameTrack lane tid = none) :
    (laneTrackStep s lane).lead = none := by
  by_cases hl : s.lost_count < MAX_LOST_COUNT
  · rw [laneTrackStep_coast hid hmiss hl]
  · rw [laneTrackStep_abandon hid hmiss (by omega)]
    cases hmin : minByDRel lane <;> simp [hmin]

/-! ### The claims -/

/-- C5: for every call of `update_adjacent_lanes_from_live_tracks` with ego
speed below 8.94 m/s (20 mph), both `left_lane_lead` and `right_lane_lead`
are null at the end of the cycle, regardless of the supplied detection
points, the prior state, or the lane-quality signals. -/
theorem C5_low_speed_clear (st : AdjState) (points : List RadarPoint) (v_ego : ℚ)
    (hv : v_ego < MIN_SPEED_FOR_ADJACENT_LANES) :
    (update_adjacent_lanes_from_live_tracks st points v_ego).left.lead = none ∧
    (update_adjacent_lanes_from_live_tracks st points v_ego).right.lead = none := by
  unfold update_adjacent_lanes_from_live_tracks
  rw [if_pos hv]
  exact ⟨rfl, rfl⟩

/-- C5 witness: a confirmed state with a would-be candidate supplied is
cleared on both sides at `v_ego = 0`. -/
theorem C5_low_speed_clear_witness :
    (update_adjacent_lanes_from_live_tracks
        ⟨⟨some 2, 7, 0, some ⟨2, true, 30, -(mkRat 5 2), -3, none⟩⟩,
         ⟨some 3, 7, 0, some ⟨3, true, 30, mkRat 5 2, -3, none⟩⟩, 1, 1⟩
        [⟨2, true, 30, -(mkRat 5 2), -3, none⟩] 0).left.lead = none ∧
    (update_adjacent_lanes_from_live_tracks
        ⟨⟨some 2, 7, 0, some ⟨2, true, 30, -(mkRat 5 2), -3, none⟩⟩,
         ⟨some 3, 7, 0, some ⟨3, true, 30, mkRat 5 2, -3, none⟩⟩, 1, 1⟩
        [⟨2, true, 30, -(mkRat 5 2), -3, none⟩] 0).right.lead = none :=
  C5_low_speed_clear _ _ _ (by decide)

/-- C6: the sanity and velocity filters of the gathering loop: a point with
`d_rel < 0.75` or `d_rel > 200` never enters either candidate list; with
`v_ego > 1` a point with `|v_rel| < 1` never enters either list; with
`v_ego ≤ 1` a point with `v_rel > -7` never enters either list. -/
theorem C6_sanity_velocity_filters (v lq rq : ℚ) (pts : List RadarPoint) (pt : RadarPoint) :
    ((pt.dRel < mkRat 3 4 ∨ pt.dRel > 200) →
       pt ∉ (gatherLanes v lq rq pts).1 ∧ pt ∉ (gatherLanes v lq rq pts).2) ∧
    (v > 1 → |pt.vRel| < 1 →
       pt ∉ (gatherLanes v lq rq pts).1 ∧ pt ∉ (gatherLanes v lq rq pts).2) ∧
    (v ≤ 1 → pt.vRel > -7 →
       pt ∉ (gatherLanes v lq rq pts).1 ∧ pt ∉ (gatherLanes v lq rq pts).2) := by
  refine ⟨fun hd => ⟨fun hmem => ?_, fun hmem => ?_⟩,
          fun hv hvr => ⟨fun hmem => ?_, fun hmem => ?_⟩,
          fun hv hvr => ⟨fun hmem => ?_, fun hmem => ?_⟩⟩
  · exact (mem_gatherLanes_left.1 hmem).2.2.1 hd
  · exact (mem_gatherLanes_right.1 hmem).2.2.1 hd
  · exact (mem_gatherLanes_left.1 hmem).2.2.2.2.1 (by rw [if_pos hv]; exact hvr)
  · exact (mem_gatherLanes_right.1 hmem).2.2.2.2.1 (by rw [if_pos hv]; exact hvr)
  · exact (mem_gatherLanes_left.1 hmem).2.2.2.2.1 (by rw [if_neg (not_lt.2 hv)]; exact hvr)
  · exact (mem_gatherLanes_right.1 hmem).2.2.2.2.1 (by rw [if_neg (not_lt.2 hv)]; exact hvr)

/-- C6 witness: a too-close point, a stationary point at driving speed, and
a slow point at standstill are each excluded from both candidate lists. -/
theorem C6_sanity_velocity_filters_witness :
    ((⟨1, true, mkRat 1 2, 2, -3, none⟩ : RadarPoint) ∉
        (gatherLanes 15 1 1 [⟨1, true, mkRat 1 2, 2, -3, none⟩]).1 ∧
      (⟨1, true, mkRat 1 2, 2, -3, none⟩ : RadarPoint) ∉
        (gatherLanes 15 1 1 [⟨1, true, mkRat 1 2, 2, -3, none⟩]).2) ∧
    ((⟨2, true, 30, 2, 0, none⟩ : RadarPoint) ∉
        (gatherLanes 15 1 1 [⟨2, true, 30, 2, 0, none⟩]).1 ∧
      (⟨2, true, 30, 2, 0, none⟩ : RadarPoint) ∉
        (gatherLanes 15 1 1 [⟨2, true, 30, 2, 0, none⟩]).2) ∧
    ((⟨3, true, 30, 2, 0, none⟩ : RadarPoint) ∉
        (gatherLanes 0 1 1 [⟨3, true, 30, 2, 0, none⟩]).1 ∧
      (⟨3, true, 30, 2, 0, none⟩ : RadarPoint) ∉
        (gatherLanes 0 1 1 [⟨3, true, 30, 2, 0, none⟩]).2) :=
  ⟨(C6_sanity_velocity_filters 15 1 1 _ _).1 (Or.inl (by decide)),
   (C6_sanity_velocity_filters 15 1 1 _ _).2.1 (by decide) (by decide),
   (C6_sanity_velocity_filters 0 1 1 _ _).2.2 (by decide) (by decide)⟩

/-- C7: a point enters the left candidate list only inside the strict band
`-MAX_LATERAL < y_rel < -LANE_BOUNDARY` with the left lane-quality signal
positive, and the right list only inside `LANE_BOUNDARY < y_rel <
MAX_LATERAL` with the right signal positive; a point with `|y_rel| =
LANE_BOUNDARY` is in neither list, and no point is in both. -/
theorem C7_lateral_band_and_disjointness (v lq rq : ℚ) (pts : List RadarPoint)
    (pt : RadarPoint) :
    (pt ∈ (gatherLanes v lq rq pts).1 →
       (-MAX_LATERAL < pt.yRel ∧ pt.yRel < -LANE_BOUNDARY) ∧ lq > 0) ∧
    (pt ∈ (gatherLanes v lq rq pts).2 →
       (LANE_BOUNDARY < pt.yRel ∧ pt.yRel < MAX_LATERAL) ∧ rq > 0) ∧
    (|pt.yRel| = LANE_BOUNDARY →
       pt ∉ (gatherLanes v lq rq pts).1 ∧ pt ∉ (gatherLanes v lq rq pts).2) ∧
    ¬(pt ∈ (gatherLanes v lq rq pts).1 ∧ pt ∈ (gatherLanes v lq rq pts).2) := by
  refine ⟨fun h => ?_, fun h => ?_, fun habs => ⟨fun h => ?_, fun h => ?_⟩, fun h => ?_⟩
  · have hadm := (mem_gatherLanes_left.1 h).2
    exact ⟨hadm.2.2.2.2.1, hadm.2.2.2.2.2⟩
  · have hadm := (mem_gatherLanes_right.1 h).2
    exact ⟨hadm.2.2.2.2.2.1, hadm.2.2.2.2.2.2⟩
  · have hband := (mem_gatherLanes_left.1 h).2.2.2.2.2.1.2
    rcases (abs_eq (by decide : (0:ℚ) ≤ LANE_BOUNDARY)).1 habs with heq | heq
    · rw [heq] at hband
      exact absurd hband (by decide)
    · rw [heq] at hband
      exact absurd hband (lt_irrefl _)
  · have hband := (mem_gatherLanes_right.1 h).2.2.2.2.2.2.1.1
    rcases (abs_eq (by decide : (0:ℚ) ≤ LANE_BOUNDARY)).1 habs with heq | heq
    · rw [heq] at hband
      exact absurd hband (lt_irrefl _)
    · rw [heq] at hband
      exact absurd hband (by decide)
  · exact (mem_gatherLanes_right.1 h.2).2.2.2.2.2.1 (mem_gatherLanes_left.1 h.1).2.2.2.2.2.1

/-- C7 witness: a point exactly on the 1.8 m boundary is excluded from both
candidate lists. -/
theorem C7_lateral_band_and_disjointness_witness :
    (⟨5, true, 30, mkRat 9 5, -3, none⟩ : RadarPoint) ∉
      (gatherLanes 15 1 1 [⟨5, true, 30, mkRat 9 5, -3, none⟩]).1 ∧
    (⟨5, true, 30, mkRat 9 5, -3, none⟩ : RadarPoint) ∉
      (gatherLanes 15 1 1 [⟨5, true, 30, mkRat 9 5, -3, none⟩]).2 :=
  (C7_lateral_band_and_disjointness 15 1 1 _ _).2.2.1 (by decide)

/-- C8: if the locked track is absent from that side's candidate list in a
cycle (above the speed gate, where the candidate lists exist), the exposed
lead for that side is null at the end of that same cycle — both while
coasting and in the abandonment cycle. -/
theorem C8_immediate_clear_on_miss (st : AdjState) (points : List RadarPoint) (v_ego : ℚ)
    (tid : ℕ) (hv : ¬ v_ego < MIN_SPEED_FOR_ADJACENT_LANES) :
    (st.left.track_id = some tid →
      findSameTrack
        (gatherLanes v_ego st.left_lane_quality st.right_lane_quality points).1 tid = none →
      (update_adjacent_lanes_from_live_tracks st points v_ego).left.lead = none) ∧
    (st.right.track_id = some tid →
      findSameTrack
        (gatherLanes v_ego st.left_lane_quality st.right_lane_quality points).2 tid = none →
      (update_adjacent_lanes_from_live_tracks st points v_ego).right.lead = none) := by
  unfold update_adjacent_lanes_from_live_tracks
  rw [if_neg hv]
  exact ⟨fun hid hmiss => laneTrackStep_miss_lead hid hmiss,
         fun hid hmiss => laneTrackStep_miss_lead hid hmiss⟩

/-- C8 witness: at 15 m/s with no detections, a locked-and-coasting side
and a locked side at the abandonment threshold both end the cycle with a
null lead. -/
theorem C8_immediate_clear_on_miss_witness :
    (update_adjacent_lanes_from_live_tracks
        ⟨⟨some 2, 7, 0, some ⟨2, true, 30, -2, -3, none⟩⟩, ⟨some 3, 7, 10, none⟩, 1, 1⟩
        [] 15).left.lead = none ∧
    (update_adjacent_lanes_from_live_tracks
        ⟨⟨some 2, 7, 0, some ⟨2, true, 30, -2, -3, none⟩⟩, ⟨some 3, 7, 10, none⟩, 1, 1⟩
        [] 15).right.lead = none :=
  ⟨(C8_immediate_clear_on_miss _ [] 15 2 (by decide)).1 rfl rfl,
   (C8_immediate_clear_on_miss _ [] 15 3 (by decide)).2 rfl rfl⟩

/-- Each per-side tracker cycle leaves the state with a null lead or a
confirmation count at or above the threshold. -/
lemma laneTrackStep_lead_confirm (s : LaneState) (lane : List RadarPoint) :
    (laneTrackStep s lane).lead = none ∨
    (laneTrackStep s lane).track_count ≥ MIN_TRACK_COUNT := by
  cases hid : s.track_id with
  | none =>
    rw [laneTrackStep_unlocked hid]
    cases hmin : minByDRel lane <;> simp
  | some tid =>
    cases hf : findSameTrack lane tid with
    | some pt =>
      rw [laneTrackStep_matched hid hf]
      by_cases hcnt : s.track_count + 1 ≥ MIN_TRACK_COUNT
      · exact Or.inr hcnt
      · left
        simp [hcnt]
    | none =>
      by_cases hl : s.lost_count < MAX_LOST_COUNT
      · rw [laneTrackStep_coast hid hf hl]
        exact Or.inl rfl
      · rw [laneTrackStep_abandon hid hf (by omega)]
        cases hmin : minByDRel lane <;> simp [hmin]

/-- C3, counterexample to the claim as stated: `update_radar_tracks` (one
of the operations that mutate the lead) copies the radar interface's lead
into a state whose confirmation counter is 0, leaving a non-null lead with
`track_count < MIN_TRACK_COUNT`. -/
theorem C3_counterexample :
    (update_radar_tracks ⟨⟨none, 0, 0, none⟩, ⟨none, 0, 0, none⟩, 0, 0⟩
        (some ⟨9, true, mkRat 1 10, -2, 0, none⟩) none).left.lead =
      some ⟨9, true, mkRat 1 10, -2, 0, none⟩ ∧
    (update_radar_tracks ⟨⟨none, 0, 0, none⟩, ⟨none, 0, 0, none⟩, 0, 0⟩
        (some ⟨9, true, mkRat 1 10, -2, 0, none⟩) none).left.track_count <
      MIN_TRACK_COUNT := by
  constructor
  · rfl
  · decide

/-- C3 amended: the invariant "`lead` non-null only if the side's
confirmation counter is at least `MIN_TRACK_COUNT`" holds after every cycle
of `update_adjacent_lanes_from_live_tracks`, for both sides and any prior
state; it is not maintained by `update_radar_tracks`, which copies the
radar interface's per-cycle closest-point leads without consulting the
counters. -/
theorem C3_amended_confirm_invariant (st : AdjState) (points : List RadarPoint) (v_ego : ℚ) :
    ((update_adjacent_lanes_from_live_tracks st points v_ego).left.lead = none ∨
      (update_adjacent_lanes_from_live_tracks st points v_ego).left.track_count ≥
        MIN_TRACK_COUNT) ∧
    ((update_adjacent_lanes_from_live_tracks st points v_ego).right.lead = none ∨
      (update_adjacent_lanes_from_live_tracks st points v_ego).right.track_count ≥
        MIN_TRACK_COUNT) := by
  unfold update_adjacent_lanes_from_live_tracks
  by_cases hv : v_ego < MIN_SPEED_FOR_ADJACENT_LANES
  · rw [if_pos hv]
    exact ⟨Or.inl rfl, Or.inl rfl⟩
  · rw [if_neg hv]
    exact ⟨laneTrackStep_lead_confirm _ _, laneTrackStep_lead_confirm _ _⟩

/-- C4, counterexample to the claim as stated: with the locked track absent
and `lost_count` already at `MAX_LOST_COUNT`, the cycle ends with
`lost_count = 0` (abandonment resets the counter in the same cycle), not
one larger. -/
theorem C4_counterexample :
    findSameTrack [] 1 = none ∧
    (laneTrackStep ⟨some 1, 5, MAX_LOST_COUNT, none⟩ []).lost_count = 0 ∧
    (laneTrackStep ⟨some 1, 5, MAX_LOST_COUNT, none⟩ []).lost_count ≠
      MAX_LOST_COUNT + 1 := by
  decide

/-- C4 amended: with a locked track, `lost_count` resets to 0 on a match;
on a miss it ends the cycle exactly one larger while the pre-cycle value is
below `MAX_LOST_COUNT`, and resets to 0 on the miss that would push it past
`MAX_LOST_COUNT` (the abandonment/re-acquisition cycle). -/
theorem C4_amended_lost_count (s : LaneState) (lane : List RadarPoint) (tid : ℕ)
    (hid : s.track_id = some tid) :
    (∀ pt, findSameTrack lane tid = some pt → (laneTrackStep s lane).lost_count = 0) ∧
    (findSameTrack lane tid = none → s.lost_count < MAX_LOST_COUNT →
      (laneTrackStep s lane).lost_count = s.lost_count + 1) ∧
    (findSameTrack lane tid = none → MAX_LOST_COUNT ≤ s.lost_count →
      (laneTrackStep s lane).lost_count = 0) := by
  refine ⟨fun pt hpt => ?_, fun hm hl => ?_, fun hm hl => ?_⟩
  · rw [laneTrackStep_matched hid hpt]
  · rw [laneTrackStep_coast hid hm hl]
  · rw [laneTrackStep_abandon hid hm hl]
    cases hmin : minByDRel lane <;> simp [hmin]

/-- C4 witness: the three regimes at concrete states — match resets to 0, a
miss at `lost_count = 4` ends at 5, a miss at `lost_count = 10` ends at 0. -/
theorem C4_amended_lost_count_witness :
    (laneTrackStep ⟨some 2, 3, 4, none⟩ [⟨2, true, 30, -2, -3, none⟩]).lost_count = 0 ∧
    (laneTrackStep ⟨some 2, 3, 4, none⟩ []).lost_count = 4 + 1 ∧
    (laneTrackStep ⟨some 2, 3, 10, none⟩ []).lost_count = 0 :=
  ⟨(C4_amended_lost_count ⟨some 2, 3, 4, none⟩ [⟨2, true, 30, -2, -3, none⟩] 2 rfl).1
      ⟨2, true, 30, -2, -3, none⟩ (by decide),
   (C4_amended_lost_count ⟨some 2, 3, 4, none⟩ [] 2 rfl).2.1 (by decide) (by decide),
   (C4_amended_lost_count ⟨some 2, 3, 10, none⟩ [] 2 rfl).2.2 (by decide) (by decide)⟩

/-- C1 (amended): from an unlocked state with a non-empty candidate list,
the tracker locks onto the minimum-`dRel` candidate with `track_count = 1`,
`lost_count = 0` and a null lead; in an acquisition in which the locked
track is matched in every following cycle, the lead stays null on every
cycle before the `MIN_TRACK_COUNT`-th consecutive cycle of presence
(acquisition included) and becomes the matched point exactly on that
cycle. Five consecutive matched cycles are sufficient but not necessary
for first exposure: a miss inside the forgiveness window keeps the lock
and leaves `track_count` untouched (final conjunct), so the count also
accumulates across interrupted acquisitions. -/
theorem C1_nearest_acquisition_then_confirm (s : LaneState) (lane0 : List RadarPoint)
    (c : RadarPoint) (lanes : ℕ → List RadarPoint)
    (hid : s.track_id = none)
    (hc : minByDRel lane0 = some c)
    (hm : ∀ i, i < MIN_TRACK_COUNT - 1 → (findSameTrack (lanes i) c.trackId).isSome) :
    (c ∈ lane0 ∧ ∀ p ∈ lane0, c.dRel ≤ p.dRel) ∧
    laneTrackStep s lane0 = ⟨some c.trackId, 1, 0, none⟩ ∧
    (∀ j, j < MIN_TRACK_COUNT - 1 →
      (trackIter lanes (laneTrackStep s lane0) j).lead = none) ∧
    (∀ pt, findSameTrack (lanes (MIN_TRACK_COUNT - 2)) c.trackId = some pt →
      trackIter lanes (laneTrackStep s lane0) (MIN_TRACK_COUNT - 1) =
        ⟨some c.trackId, MIN_TRACK_COUNT, 0, some pt⟩) ∧
    (∀ (s2 : LaneState) (lane : List RadarPoint) (tid : ℕ), s2.track_id = some tid →
      s2.lost_count < MAX_LOST_COUNT → findSameTrack lane tid = none →
      (laneTrackStep s2 lane).track_id = some tid ∧
      (laneTrackStep s2 lane).track_count = s2.track_count) := by
  have hMT : MIN_TRACK_COUNT = 5 := rfl
  have hacq : laneTrackStep s lane0 = ⟨some c.trackId, 1, 0, none⟩ := by
    rw [laneTrackStep_unlocked hid, hc]
  refine ⟨minByDRel_spec hc, hacq, ?_, ?_, ?_⟩
  · intro j hj
    rw [hacq]
    rcases Nat.eq_zero_or_pos j with rfl | hpos
    · rfl
    · obtain ⟨-, -, h34⟩ := trackIter_matched lanes ⟨some c.trackId, 1, 0, none⟩ c.trackId j
        rfl (fun i hi => hm i (by omega))
      obtain ⟨-, h4⟩ := h34 (by omega)
      have hcond : ¬ ((⟨some c.trackId, 1, 0, none⟩ : LaneState).track_count + j ≥
          MIN_TRACK_COUNT) := by
        show ¬ ((1 : ℕ) + j ≥ MIN_TRACK_COUNT)
        omega
      rw [h4, if_neg hcond]
  · intro pt hpt
    rw [hacq]
    obtain ⟨h1, h2, h34⟩ := trackIter_matched lanes ⟨some c.trackId, 1, 0, none⟩ c.trackId
      (MIN_TRACK_COUNT - 1) rfl (fun i hi => hm i hi)
    obtain ⟨h3, h4⟩ := h34 (by omega)
    have hcond : (⟨some c.trackId, 1, 0, none⟩ : LaneState).track_count +
        (MIN_TRACK_COUNT - 1) ≥ MIN_TRACK_COUNT := by
      show (1 : ℕ) + (MIN_TRACK_COUNT - 1) ≥ MIN_TRACK_COUNT
      omega
    rw [if_pos hcond] at h4
    have hidx : MIN_TRACK_COUNT - 1 - 1 = MIN_TRACK_COUNT - 2 := by omega
    rw [hidx, hpt] at h4
    have h2x : (trackIter lanes ⟨some c.trackId, 1, 0, none⟩ (MIN_TRACK_COUNT - 1)).track_count =
        MIN_TRACK_COUNT := by
      rw [h2]
      show (1 : ℕ) + (MIN_TRACK_COUNT - 1) = MIN_TRACK_COUNT
      omega
    have hext : ∀ x : LaneState, x.track_id = some c.trackId →
        x.track_count = MIN_TRACK_COUNT → x.lost_count = 0 → x.lead = some pt →
        x = ⟨some c.trackId, MIN_TRACK_COUNT, 0, some pt⟩ := by
      intro x e1 e2 e3 e4
      cases x
      simp_all
    exact hext _ h1 h2x h3 h4
  · intro s2 lane tid hid2 hl2 hmiss
    rw [laneTrackStep_coast hid2 hmiss hl2]
    exact ⟨rfl, rfl⟩

/-- C1 witness: from an unlocked state and two candidates at 30 m and 70 m,
track 2 (the nearer) is acquired, and after four further matched cycles the
lead is exposed as track 2 with `track_count = MIN_TRACK_COUNT`. -/
theorem C1_nearest_acquisition_then_confirm_witness :
    trackIter (fun _ => [⟨2, true, 30, -2, -3, none⟩])
        (laneTrackStep ⟨none, 0, 0, none⟩
          [⟨2, true, 30, -2, -3, none⟩, ⟨3, true, 70, -3, -3, none⟩])
        (MIN_TRACK_COUNT - 1) =
      ⟨some 2, MIN_TRACK_COUNT, 0, some ⟨2, true, 30, -2, -3, none⟩⟩ :=
  (C1_nearest_acquisition_then_confirm ⟨none, 0, 0, none⟩
      [⟨2, true, 30, -2, -3, none⟩, ⟨3, true, 70, -3, -3, none⟩]
      ⟨2, true, 30, -2, -3, none⟩ (fun _ => [⟨2, true, 30, -2, -3, none⟩])
      rfl (by decide) (fun i _ => rfl)).2.2.2.1
    ⟨2, true, 30, -2, -3, none⟩ (by decide)

/-- An acquisition trace for the C1 counterexample: track 2 present in
cycles 0, 1, 2 and 5 after acquisition, absent in cycles 3 and 4. -/
def lanesC1 : ℕ → List RadarPoint :=
  fun i => if i = 3 ∨ i = 4 then [] else [⟨2, true, 30, -2, -3, none⟩]

/-- C1, counterexample to the claim as stated: in the `lanesC1` trace the
lead first becomes non-null on the cycle after two consecutive misses — the
locked track was matched in only five non-consecutive cycles (the longest
consecutive run is four) — because a miss inside the forgiveness window
does not reset the confirmation count. So "matched in exactly
`MIN_TRACK_COUNT` consecutive cycles" is not required before first
exposure. -/
theorem C1_counterexample :
    (∀ j, j < 6 →
      (trackIter lanesC1 (laneTrackStep ⟨none, 0, 0, none⟩
        [⟨2, true, 30, -2, -3, none⟩]) j).lead = none) ∧
    findSameTrack (lanesC1 3) 2 = none ∧
    findSameTrack (lanesC1 4) 2 = none ∧
    trackIter lanesC1 (laneTrackStep ⟨none, 0, 0, none⟩ [⟨2, true, 30, -2, -3, none⟩]) 5 =
      ⟨some 2, 4, 2, none⟩ ∧
    trackIter lanesC1 (laneTrackStep ⟨none, 0, 0, none⟩ [⟨2, true, 30, -2, -3, none⟩]) 6 =
      ⟨some 2, 5, 0, some ⟨2, true, 30, -2, -3, none⟩⟩ := by
  decide

/-- C2: a confirmed lock survives `MAX_LOST_COUNT` consecutive misses
unchanged apart from the climbing lost counter and the cleared lead; the
`MAX_LOST_COUNT + 1`-st miss abandons the lock and re-acquires the closest
remaining candidate (or fully resets) in the same cycle; and a reappearance
after at most `MAX_LOST_COUNT` misses keeps the same lock, resets
`lost_count` to 0, and re-exposes the lead immediately, with no fresh
`MIN_TRACK_COUNT` confirmation. -/
theorem C2_forgiveness_bound_and_reappearance (s : LaneState) (tid : ℕ)
    (lanes : ℕ → List RadarPoint)
    (hid : s.track_id = some tid)
    (hconf : s.track_count ≥ MIN_TRACK_COUNT)
    (hlost : s.lost_count = 0)
    (hm : ∀ i, i < MAX_LOST_COUNT → findSameTrack (lanes i) tid = none) :
    (∀ j, j ≤ MAX_LOST_COUNT →
      trackIter lanes s j = ⟨some tid, s.track_count, j, if j = 0 then s.lead else none⟩) ∧
    (∀ lane11, findSameTrack lane11 tid = none →
      (∀ c, minByDRel lane11 = some c →
        laneTrackStep (trackIter lanes s MAX_LOST_COUNT) lane11 =
          ⟨some c.trackId, 1, 0, none⟩) ∧
      (minByDRel lane11 = none →
        laneTrackStep (trackIter lanes s MAX_LOST_COUNT) lane11 = ⟨none, 0, 0, none⟩)) ∧
    (∀ j, j ≤ MAX_LOST_COUNT → ∀ lane pt, findSameTrack lane tid = some pt →
      laneTrackStep (trackIter lanes s j) lane = ⟨some tid, s.track_count + 1, 0, some pt⟩) := by
  have ha : ∀ j, j ≤ MAX_LOST_COUNT →
      trackIter lanes s j = ⟨some tid, s.track_count, j, if j = 0 then s.lead else none⟩ := by
    intro j hj
    have h := trackIter_missed lanes s tid j hid (fun i hi => hm i (by omega)) (by omega)
    simpa [hlost] using h
  refine ⟨ha, ?_, ?_⟩
  · intro lane11 hmiss
    have h10 := ha MAX_LOST_COUNT le_rfl
    have hid2 : (trackIter lanes s MAX_LOST_COUNT).track_id = some tid := by rw [h10]
    have hl2 : MAX_LOST_COUNT ≤ (trackIter lanes s MAX_LOST_COUNT).lost_count := by
      rw [h10]
    constructor
    · intro c hcmin
      rw [laneTrackStep_abandon hid2 hmiss hl2, hcmin]
    · intro hcmin
      rw [laneTrackStep_abandon hid2 hmiss hl2, hcmin]
  · intro j hj lane pt hpt
    have hjst := ha j hj
    have hid2 : (trackIter lanes s j).track_id = some tid := by rw [hjst]
    have hcnt : s.track_count + 1 ≥ MIN_TRACK_COUNT := by omega
    rw [laneTrackStep_matched hid2 hpt, hjst]
    simp [hcnt]

/-- C2 witness: a confirmed lock on track 2 misses ten cycles; on the
eleventh cycle a reappearing track 2 is re-exposed at once with the same
lock (left conjunct), while a missing track 2 with a fresh candidate
(track 7) is abandoned and replaced in the same cycle (right conjunct). -/
theorem C2_forgiveness_bound_and_reappearance_witness :
    laneTrackStep (trackIter (fun _ => []) ⟨some 2, 5, 0, some ⟨2, true, 30, -2, -3, none⟩⟩
        MAX_LOST_COUNT) [⟨2, true, 30, -2, -3, none⟩] =
      ⟨some 2, 5 + 1, 0, some ⟨2, true, 30, -2, -3, none⟩⟩ ∧
    laneTrackStep (trackIter (fun _ => []) ⟨some 2, 5, 0, some ⟨2, true, 30, -2, -3, none⟩⟩
        MAX_LOST_COUNT) [⟨7, true, 40, -2, -3, none⟩] =
      ⟨some 7, 1, 0, none⟩ :=
  ⟨(C2_forgiveness_bound_and_reappearance ⟨some 2, 5, 0, some ⟨2, true, 30, -2, -3, none⟩⟩ 2
      (fun _ => []) rfl (by decide) rfl (fun i _ => rfl)).2.2 MAX_LOST_COUNT le_rfl
      [⟨2, true, 30, -2, -3, none⟩] ⟨2, true, 30, -2, -3, none⟩ (by decide),
   ((C2_forgiveness_bound_and_reappearance ⟨some 2, 5, 0, some ⟨2, true, 30, -2, -3, none⟩⟩ 2
      (fun _ => []) rfl (by decide) rfl (fun i _ => rfl)).2.1
      [⟨7, true, 40, -2, -3, none⟩] (by decide)).1 ⟨7, true, 40, -2, -3, none⟩ (by decide)⟩

lemma update_adjacent_lane_leads_fst (radar_points : List RadarPoint) :
    (update_adjacent_lane_leads radar_points).1 =
      minByDRel (radar_points.filter (fun pt => pt.measured &&
        decide (-(mkRat 11 2) < pt.yRel) && decide (pt.yRel < -(mkRat 9 5)))) := rfl

lemma update_adjacent_lane_leads_snd (radar_points : List RadarPoint) :
    (update_adjacent_lane_leads radar_points).2 =
      minByDRel (radar_points.filter (fun pt => pt.measured &&
        decide (mkRat 9 5 < pt.yRel) && decide (pt.yRel < mkRat 11 2))) := rfl

lemma minByDRel_filter_none {pts : List RadarPoint} {f : RadarPoint → Bool} :
    minByDRel (pts.filter f) = none ↔ ∀ pt ∈ pts, ¬ f pt = true := by
  rw [minByDRel_eq_none, List.filter_eq_nil_iff]

lemma minByDRel_filter_some {pts : List RadarPoint} {f : RadarPoint → Bool} {c : RadarPoint}
    (h : minByDRel (pts.filter f) = some c) :
    (c ∈ pts ∧ f c = true) ∧ ∀ p ∈ pts, f p = true → c.dRel ≤ p.dRel := by
  obtain ⟨hmem, hmin⟩ := minByDRel_spec h
  exact ⟨List.mem_filter.1 hmem, fun p hp hf => hmin p (List.mem_filter.2 ⟨hp, hf⟩)⟩

/-- C10: the second public pathway bypasses the continuity tracker:
`_update_adjacent_lane_leads` selects, for each side, the minimum-`dRel`
measured point in the bare lateral band `1.8 < |y_rel| < 5.5` — with no
distance-sanity, velocity, lane-quality or low-speed condition — and
`update_radar_tracks` copies both leads into the car state unconditionally,
leaving every per-side counter and lock untouched. -/
theorem C10_tracker_bypass (radar_points : List RadarPoint) (st : AdjState) :
    (update_radar_tracks st (update_adjacent_lane_leads radar_points).1
        (update_adjacent_lane_leads radar_points).2).left.lead =
      (update_adjacent_lane_leads radar_points).1 ∧
    (update_radar_tracks st (update_adjacent_lane_leads radar_points).1
        (update_adjacent_lane_leads radar_points).2).right.lead =
      (update_adjacent_lane_leads radar_points).2 ∧
    (update_radar_tracks st (update_adjacent_lane_leads radar_points).1
        (update_adjacent_lane_leads radar_points).2).left.track_id = st.left.track_id ∧
    (update_radar_tracks st (update_adjacent_lane_leads radar_points).1
        (update_adjacent_lane_leads radar_points).2).left.track_count = st.left.track_count ∧
    (update_radar_tracks st (update_adjacent_lane_leads radar_points).1
        (update_adjacent_lane_leads radar_points).2).left.lost_count = st.left.lost_count ∧
    (update_radar_tracks st (update_adjacent_lane_leads radar_points).1
        (update_adjacent_lane_leads radar_points).2).right.track_id = st.right.track_id ∧
    (update_radar_tracks st (update_adjacent_lane_leads radar_points).1
        (update_adjacent_lane_leads radar_points).2).right.track_count = st.right.track_count ∧
    (update_radar_tracks st (update_adjacent_lane_leads radar_points).1
        (update_adjacent_lane_leads radar_points).2).right.lost_count = st.right.lost_count ∧
    ((update_adjacent_lane_leads radar_points).1 = none ↔
      ∀ pt ∈ radar_points,
        ¬(pt.measured = true ∧ -(mkRat 11 2) < pt.yRel ∧ pt.yRel < -(mkRat 9 5))) ∧
    (∀ c, (update_adjacent_lane_leads radar_points).1 = some c →
      (c ∈ radar_points ∧ c.measured = true ∧
        -(mkRat 11 2) < c.yRel ∧ c.yRel < -(mkRat 9 5)) ∧
      ∀ p ∈ radar_points, p.measured = true → -(mkRat 11 2) < p.yRel →
        p.yRel < -(mkRat 9 5) → c.dRel ≤ p.dRel) ∧
    ((update_adjacent_lane_leads radar_points).2 = none ↔
      ∀ pt ∈ radar_points,
        ¬(pt.measured = true ∧ mkRat 9 5 < pt.yRel ∧ pt.yRel < mkRat 11 2)) ∧
    (∀ c, (update_adjacent_lane_leads radar_points).2 = some c →
      (c ∈ radar_points ∧ c.measured = true ∧
        mkRat 9 5 < c.yRel ∧ c.yRel < mkRat 11 2) ∧
      ∀ p ∈ radar_points, p.measured = true → mkRat 9 5 < p.yRel →
        p.yRel < mkRat 11 2 → c.dRel ≤ p.dRel) := by
  refine ⟨rfl, rfl, rfl, rfl, rfl, rfl, rfl, rfl, ?_, ?_, ?_, ?_⟩
  · rw [update_adjacent_lane_leads_fst, minByDRel_filter_none]
    simp [and_assoc]
  · intro c hc
    rw [update_adjacent_lane_leads_fst] at hc
    obtain ⟨⟨hmem, hf⟩, hmin⟩ := minByDRel_filter_some hc
    simp only [Bool.and_eq_true, decide_eq_true_eq] at hf
    exact ⟨⟨hmem, hf.1.1, hf.1.2, hf.2⟩,
      fun p hp h1 h2 h3 => hmin p hp (by simp [h1, h2, h3])⟩
  · rw [update_adjacent_lane_leads_snd, minByDRel_filter_none]
    simp [and_assoc]
  · intro c hc
    rw [update_adjacent_lane_leads_snd] at hc
    obtain ⟨⟨hmem, hf⟩, hmin⟩ := minByDRel_filter_some hc
    simp only [Bool.and_eq_true, decide_eq_true_eq] at hf
    exact ⟨⟨hmem, hf.1.1, hf.1.2, hf.2⟩,
      fun p hp h1 h2 h3 => hmin p hp (by simp [h1, h2, h3])⟩

/-- C10 witness: a point at 0.1 m with zero relative velocity — rejected by
every filter of the tracker pathway — is selected as the left lead by the
bypass pathway and copied into a car state whose counters are all 0. -/
theorem C10_tracker_bypass_witness :
    (update_radar_tracks ⟨⟨none, 0, 0, none⟩, ⟨none, 0, 0, none⟩, 0, 0⟩
        (update_adjacent_lane_leads [⟨9, true, mkRat 1 10, -2, 0, none⟩]).1
        (update_adjacent_lane_leads [⟨9, true, mkRat 1 10, -2, 0, none⟩]).2).left.lead =
      (update_adjacent_lane_leads [⟨9, true, mkRat 1 10, -2, 0, none⟩]).1 ∧
    ((⟨9, true, mkRat 1 10, -2, 0, none⟩ : RadarPoint) ∈
        [(⟨9, true, mkRat 1 10, -2, 0, none⟩ : RadarPoint)] ∧
      (⟨9, true, mkRat 1 10, -2, 0, none⟩ : RadarPoint).measured = true ∧
      -(mkRat 11 2) < (⟨9, true, mkRat 1 10, -2, 0, none⟩ : RadarPoint).yRel ∧
      (⟨9, true, mkRat 1 10, -2, 0, none⟩ : RadarPoint).yRel < -(mkRat 9 5)) :=
  ⟨(C10_tracker_bypass [⟨9, true, mkRat 1 10, -2, 0, none⟩]
      ⟨⟨none, 0, 0, none⟩, ⟨none, 0, 0, none⟩, 0, 0⟩).1,
   ((C10_tracker_bypass [⟨9, true, mkRat 1 10, -2, 0, none⟩]
      ⟨⟨none, 0, 0, none⟩, ⟨none, 0, 0, none⟩, 0, 0⟩).2.2.2.2.2.2.2.2.2.1
      ⟨9, true, mkRat 1 10, -2, 0, none⟩ (by decide)).1⟩

lemma mrr35Reports_keys (msgs : List (ℕ × Mrr35Msg)) :
    (mrr35Reports msgs).map (fun r => r.1) = msgs.map Prod.fst := by
  simp only [mrr35Reports, List.map_map]
  rfl

lemma mandoReports_keys (conv : ℚ → ℚ → ℚ × ℚ) (msgs : List (ℕ × MandoMsg)) :
    (mandoReports conv msgs).map (fun r => r.1) = msgs.map Prod.fst := by
  simp only [mandoReports, List.map_map]
  rfl

/-- C9: after one full per-cycle pass of `RadarInterface._update` over all
slots (each slot reported exactly once, and every pre-existing store key
among this cycle's slots, as the source's fixed address-range loop
guarantees), a slot whose report is invalid this cycle — `STATE ∉ {3, 4}`
for MRR35 and Mando, distance equal to the 255.75 sentinel for MRREVO14F —
has no point in the store, and every point remaining in the store (hence in
the emitted points list) has `measured = true`. -/
theorem C9_store_eviction_and_measured
    (st35 : RadarStore ℕ) (msgs35 : List (ℕ × Mrr35Msg))
    (conv : ℚ → ℚ → ℚ × ℚ) (stM : RadarStore ℕ) (msgsM : List (ℕ × MandoMsg))
    (stE : RadarStore (ℕ × ℕ)) (msgsE : List (ℕ × Mrrevo14fMsg))
    (h35n : (msgs35.map Prod.fst).Nodup)
    (h35i : ∀ kv ∈ st35.pts, kv.1 ∈ msgs35.map Prod.fst)
    (hMn : (msgsM.map Prod.fst).Nodup)
    (hMi : ∀ kv ∈ stM.pts, kv.1 ∈ msgsM.map Prod.fst)
    (hEn : (msgsE.map Prod.fst).Nodup)
    (hEi : ∀ kv ∈ stE.pts, kv.1.1 ∈ msgsE.map Prod.fst ∧ (kv.1.2 = 1 ∨ kv.1.2 = 2)) :
    (∀ am ∈ msgs35, ¬(am.2.STATE = 3 ∨ am.2.STATE = 4) →
      storeLookup (mrr35Update st35 msgs35).pts am.1 = none) ∧
    (∀ kv ∈ (mrr35Update st35 msgs35).pts, kv.2.measured = true) ∧
    (∀ p ∈ (mrr35Update st35 msgs35).pts.map Prod.snd, p.measured = true) ∧
    (∀ am ∈ msgsM, ¬(am.2.STATE = 3 ∨ am.2.STATE = 4) →
      storeLookup (mandoUpdate conv stM msgsM).pts am.1 = none) ∧
    (∀ kv ∈ (mandoUpdate conv stM msgsM).pts, kv.2.measured = true) ∧
    (∀ p ∈ (mandoUpdate conv stM msgsM).pts.map Prod.snd, p.measured = true) ∧
    (∀ am ∈ msgsE,
      (am.2.DISTANCE_1 = mkRat 1023 4 →
        storeLookup (mrrevo14fUpdate stE msgsE).pts (am.1, 1) = none) ∧
      (am.2.DISTANCE_2 = mkRat 1023 4 →
        storeLookup (mrrevo14fUpdate stE msgsE).pts (am.1, 2) = none)) ∧
    (∀ kv ∈ (mrrevo14fUpdate stE msgsE).pts, kv.2.measured = true) ∧
    (∀ p ∈ (mrrevo14fUpdate stE msgsE).pts.map Prod.snd, p.measured = true) := by
  have h35meas : ∀ kv ∈ (mrr35Update st35 msgs35).pts, kv.2.measured = true := by
    rw [mrr35Update_eq_radarPass]
    refine radarPass_measured _ _ ?_ ?_
    · intro r hr
      rcases List.mem_map.1 hr with ⟨am, -, rfl⟩
      intro p
      rfl
    · intro kv hkv
      rw [mrr35Reports_keys]
      exact Or.inl (h35i kv hkv)
  have hMmeas : ∀ kv ∈ (mandoUpdate conv stM msgsM).pts, kv.2.measured = true := by
    rw [mandoUpdate_eq_radarPass]
    refine radarPass_measured _ _ ?_ ?_
    · intro r hr
      rcases List.mem_map.1 hr with ⟨am, -, rfl⟩
      intro p
      rfl
    · intro kv hkv
      rw [mandoReports_keys]
      exact Or.inl (hMi kv hkv)
  have hEmeas : ∀ kv ∈ (mrrevo14fUpdate stE msgsE).pts, kv.2.measured = true := by
    rw [mrrevo14fUpdate_eq_radarPass]
    refine radarPass_measured _ _ mrrevo14fReports_measured ?_
    intro kv hkv
    exact Or.inl (key_mem_mrrevo14fReports (hEi kv hkv).1 (hEi kv hkv).2)
  refine ⟨?_, h35meas, ?_, ?_, hMmeas, ?_, ?_, hEmeas, ?_⟩
  · intro am ham hinv
    rw [mrr35Update_eq_radarPass]
    have hmem := List.mem_map_of_mem
      (fun am : ℕ × Mrr35Msg => (am.1, decide (am.2.STATE = 3 ∨ am.2.STATE = 4),
        fun pt : RadarPoint =>
          { pt with measured := true, dRel := am.2.LONG_DIST, yRel := am.2.LAT_DIST,
                    vRel := am.2.REL_SPEED, aRel := some am.2.REL_ACCEL })) ham
    simp only [decide_eq_false hinv] at hmem
    exact radarPass_invalid_lookup _ _ (by rw [mrr35Reports_keys]; exact h35n) hmem
  · intro p hp
    rcases List.mem_map.1 hp with ⟨kv, hkv, rfl⟩
    exact h35meas kv hkv
  · intro am ham hinv
    rw [mandoUpdate_eq_radarPass]
    have hmem := List.mem_map_of_mem
      (fun am : ℕ × MandoMsg => (am.1, decide (am.2.STATE = 3 ∨ am.2.STATE = 4),
        fun pt : RadarPoint =>
          { pt with measured := true, dRel := (conv am.2.AZIMUTH am.2.LONG_DIST).1,
                    yRel := (conv am.2.AZIMUTH am.2.LONG_DIST).2,
                    vRel := am.2.REL_SPEED, aRel := some am.2.REL_ACCEL })) ham
    simp only [decide_eq_false hinv] at hmem
    exact radarPass_invalid_lookup _ _ (by rw [mandoReports_keys]; exact hMn) hmem
  · intro p hp
    rcases List.mem_map.1 hp with ⟨kv, hkv, rfl⟩
    exact hMmeas kv hkv
  · intro am ham
    obtain ⟨h1, h2⟩ := @mem_mrrevo14fReports_of_mem msgsE am ham
    constructor
    · intro hinv
      rw [mrrevo14fUpdate_eq_radarPass]
      rw [decide_eq_false (fun hne => hne hinv)] at h1
      exact radarPass_invalid_lookup _ _ (keys_mrrevo14fReports_nodup hEn) h1
    · intro hinv
      rw [mrrevo14fUpdate_eq_radarPass]
      rw [decide_eq_false (fun hne => hne hinv)] at h2
      exact radarPass_invalid_lookup _ _ (keys_mrrevo14fReports_nodup hEn) h2
  · intro p hp
    rcases List.mem_map.1 hp with ⟨kv, hkv, rfl⟩
    exact hEmeas kv hkv

/-- C9 witness: concrete two-slot cycles for all three variants — one valid
and one invalid report each (plus a stale pre-existing point under the
invalid MRR35 slot) — leave exactly the valid slots in the stores, all
marked measured. -/
theorem C9_store_eviction_and_measured_witness :
    storeLookup (mrr35Update ⟨[(6, ⟨42, true, 9, 9, 9, none⟩)], 43⟩
        [(5, ⟨3, 10, 1, -2, 0⟩), (6, ⟨0, 10, 1, -2, 0⟩)]).pts 6 = none ∧
    (∀ kv ∈ (mrr35Update ⟨[(6, ⟨42, true, 9, 9, 9, none⟩)], 43⟩
        [(5, ⟨3, 10, 1, -2, 0⟩), (6, ⟨0, 10, 1, -2, 0⟩)]).pts, kv.2.measured = true) ∧
    storeLookup (mandoUpdate (fun a d => (d, a)) ⟨[], 0⟩
        [(5, ⟨4, 1, 10, -2, 0⟩), (6, ⟨2, 1, 10, -2, 0⟩)]).pts 6 = none ∧
    storeLookup (mrrevo14fUpdate ⟨[], 0⟩
        [(5, ⟨10, 1, -2, mkRat 1023 4, 0, 0⟩)]).pts (5, 2) = none ∧
    (∀ kv ∈ (mrrevo14fUpdate ⟨[], 0⟩
        [(5, ⟨10, 1, -2, mkRat 1023 4, 0, 0⟩)]).pts, kv.2.measured = true) := by
  have h := C9_store_eviction_and_measured
    ⟨[(6, ⟨42, true, 9, 9, 9, none⟩)], 43⟩ [(5, ⟨3, 10, 1, -2, 0⟩), (6, ⟨0, 10, 1, -2, 0⟩)]
    (fun a d => (d, a)) ⟨[], 0⟩ [(5, ⟨4, 1, 10, -2, 0⟩), (6, ⟨2, 1, 10, -2, 0⟩)]
    ⟨[], 0⟩ [(5, ⟨10, 1, -2, mkRat 1023 4, 0, 0⟩)]
    (by decide) (by decide) (by decide) (by decide) (by decide) (by decide)
  exact ⟨h.1 (6, ⟨0, 10, 1, -2, 0⟩) (by decide) (by decide),
         h.2.1,
         h.2.2.2.1 (6, ⟨2, 1, 10, -2, 0⟩) (by decide) (by decide),
         (h.2.2.2.2.2.2.1 (5, ⟨10, 1, -2, mkRat 1023 4, 0, 0⟩) (by decide)).2 (by decide),
         h.2.2.2.2.2.2.2.1⟩
